import Mathlib

set_option maxRecDepth 4000

namespace PlateRec

/-! Shallow embedding of the plate-recognition pipeline of the repository
(backend/src/services/strictVisionService.ts,
backend/src/services/trafficCameraVisionService.ts,
backend/src/services/enhancedVisionService.ts).
Strings are modelled as List Char; JavaScript string methods are modelled at
the character-code level.  JS toUpperCase and toLowerCase are modelled on the
ASCII fragment, which is exact for every character class these services keep
(their regex classes are ASCII-only). -/

/-- JavaScript whitespace class, as used by the regexes and by trim. -/
def isJsWs (c : Char) : Bool :=
  c.toNat = 32 || c.toNat = 9 || c.toNat = 10 || c.toNat = 13 || c.toNat = 11 ||
  c.toNat = 12 || c.toNat = 0xa0 || c.toNat = 0x1680 ||
  (0x2000 ≤ c.toNat && c.toNat ≤ 0x200a) || c.toNat = 0x2028 || c.toNat = 0x2029 ||
  c.toNat = 0x202f || c.toNat = 0x205f || c.toNat = 0x3000 || c.toNat = 0xfeff

/-- JS toUpperCase (ASCII fragment). -/
def jsToUpper (c : Char) : Char :=
  if 97 ≤ c.toNat ∧ c.toNat ≤ 122 then Char.ofNat (c.toNat - 32) else c

/-- JS toLowerCase (ASCII fragment). -/
def jsToLower (c : Char) : Char :=
  if 65 ≤ c.toNat ∧ c.toNat ≤ 90 then Char.ofNat (c.toNat + 32) else c

/-- JS String.prototype.trim: drop whitespace from both ends. -/
def jsTrim (l : List Char) : List Char :=
  ((l.dropWhile isJsWs).reverse.dropWhile isJsWs).reverse

/-- Character class of the final Strict filter, the regex class of
letters A-Z, digits 0-9 and the dash. -/
def isPlateChar (c : Char) : Bool :=
  (65 ≤ c.toNat && c.toNat ≤ 90) || (48 ≤ c.toNat && c.toNat ≤ 57) || c.toNat = 45

/-- Uppercase-alphanumeric test, the regex class of A-Z and 0-9. -/
def isUpperAlnum (c : Char) : Bool :=
  (65 ≤ c.toNat && c.toNat ≤ 90) || (48 ≤ c.toNat && c.toNat ≤ 57)

/-- The separator replacements of normalizePlateNumber: bullet 0x2022,
middle dot 0xb7, full stop, any whitespace, en dash 0x2013 and em dash 0x2014
each become a dash.  The whitespace-run replacement of the source is modelled
per character, which is equivalent because a dash-run collapse follows. -/
def sepToDash (c : Char) : Char :=
  if c.toNat = 0x2022 || c.toNat = 0xb7 || c.toNat = 46 || isJsWs c ||
     c.toNat = 0x2013 || c.toNat = 0x2014 then Char.ofNat 45 else c

/-- Replace every run of consecutive dashes by a single dash
(the regex that maps dash-plus to a dash). -/
def collapseDashes : List Char → List Char
  | [] => []
  | [c] => [c]
  | a :: b :: rest =>
    if a = '-' ∧ b = '-' then collapseDashes (b :: rest)
    else a :: collapseDashes (b :: rest)

/-- Remove one leading dash, as the anchored start alternative of the
edge-dash regex does. -/
def dropLeadDash : List Char → List Char
  | [] => []
  | c :: rest => if c = '-' then rest else c :: rest

/-- Remove one trailing dash, as the anchored end alternative of the
edge-dash regex does. -/
def dropTrailDash : List Char → List Char
  | [] => []
  | [c] => if c = '-' then [] else [c]
  | a :: b :: rest => a :: dropTrailDash (b :: rest)

/-- Remove one leading and one trailing dash (the edge-dash regex with the
global flag removes at most one of each in a single pass). -/
def stripEdgeDashes (l : List Char) : List Char :=
  dropTrailDash (dropLeadDash l)

/-- normalizePlateNumber of strictVisionService.ts: trim, uppercase, map
separators to dashes, collapse dash runs, strip edge dashes, then drop every
character outside the A-Z 0-9 dash class. -/
def normalizePlateList (l : List Char) : List Char :=
  (stripEdgeDashes (collapseDashes (((jsTrim l).map jsToUpper).map sepToDash))).filter
    isPlateChar

/-- String wrapper for normalizePlateList. -/
def normalizePlateNumber (s : String) : String :=
  ⟨normalizePlateList s.toList⟩

/-- The sentinel words of both exclusion lists. -/
def sentinelWords : List (List Char) :=
  [("NOT").toList, ("FOUND").toList, ("NONE").toList, ("NULL").toList,
   ("UNDEFINED").toList, ("UNKNOWN").toList, ("NOTFOUND").toList]

/-- Case-insensitive full match against the sentinel-word alternation. -/
def isSentinelWord (l : List Char) : Bool :=
  sentinelWords.contains (l.map jsToUpper)

/-- Anchored match of the Strict date shape: four digits, dash, two digits,
dash, two digits, then anything. -/
def matchDateLead : List Char → Bool
  | y1 :: y2 :: y3 :: y4 :: s1 :: m1 :: m2 :: s2 :: d1 :: d2 :: _ =>
    y1.isDigit && y2.isDigit && y3.isDigit && y4.isDigit && s1 = '-' &&
    m1.isDigit && m2.isDigit && s2 = '-' && d1.isDigit && d2.isDigit
  | _ => false

/-- Anchored match of the time shape: two digits, colon, two digits. -/
def matchTimeLead : List Char → Bool
  | a :: b :: c :: d :: e :: _ =>
    a.isDigit && b.isDigit && c = ':' && d.isDigit && e.isDigit
  | _ => false

/-- Anchored match of the camera-id shape: CAM then at least one digit. -/
def matchCamLead : List Char → Bool
  | a :: b :: c :: d :: _ => a = 'C' && b = 'A' && c = 'M' && d.isDigit
  | _ => false

/-- Full match of the digits-and-dashes-only shape (nonempty). -/
def digitsDashesOnly (l : List Char) : Bool :=
  !l.isEmpty && l.all (fun c => c.isDigit || c = '-')

/-- The Strict exclusion list of isValidPlateFormat. -/
def strictExcluded (p : List Char) : Bool :=
  isSentinelWord p || matchDateLead p || matchTimeLead p || matchCamLead p ||
    digitsDashesOnly p

/-- isValidPlateFormat of strictVisionService.ts: at least one A-Z 0-9
character, length between 2 and 15, and no exclusion pattern matches. -/
def isValidPlateFormat (p : List Char) : Bool :=
  p.any isUpperAlnum && decide (2 ≤ p.length) && decide (p.length ≤ 15) &&
    !strictExcluded p

/-- Word character class of the TrafficCamera cleaning regex: ASCII letters,
digits and underscore. -/
def isWordChar (c : Char) : Bool :=
  (65 ≤ c.toNat && c.toNat ≤ 90) || (97 ≤ c.toNat && c.toNat ≤ 122) ||
  (48 ≤ c.toNat && c.toNat ≤ 57) || c.toNat = 95

/-- Anchored match of the TrafficCamera date shape: four digits, dash or
slash, two digits, dash or slash, two digits, then anything. -/
def matchDateLeadTC : List Char → Bool
  | y1 :: y2 :: y3 :: y4 :: s1 :: m1 :: m2 :: s2 :: d1 :: d2 :: _ =>
    y1.isDigit && y2.isDigit && y3.isDigit && y4.isDigit &&
    (s1 = '-' || s1 = '/') && m1.isDigit && m2.isDigit &&
    (s2 = '-' || s2 = '/') && d1.isDigit && d2.isDigit
  | _ => false

/-- Case-insensitive anchored match of a literal word (the word is given
uppercased). -/
def ciLeadMatch (w : List Char) (l : List Char) : Bool :=
  (l.take w.length).map jsToUpper = w

/-- The TrafficCamera exclusion list of validateTrafficCameraPlate. -/
def tcExcluded (p : List Char) : Bool :=
  isSentinelWord p || matchDateLeadTC p || matchTimeLead p || matchCamLead p ||
    ciLeadMatch (("VEHICLE").toList) p || ciLeadMatch (("NONVEHICLE").toList) p ||
    ciLeadMatch (("PERSON").toList) p

/-- The cleaning step of validateTrafficCameraPlate: trim, uppercase, keep
only word characters and dashes. -/
def tcCleanPlate (l : List Char) : List Char :=
  ((jsTrim l).map jsToUpper).filter (fun c => isWordChar c || c = '-')

/-- validateTrafficCameraPlate of trafficCameraVisionService.ts: clean,
then check length 2..15, alphanumeric presence, and the exclusion list;
on success the cleaned plate is returned. -/
def validateTrafficCameraPlate (p : List Char) : Option (List Char) :=
  let cleaned := tcCleanPlate p
  if cleaned.length < 2 || 15 < cleaned.length then none
  else if !cleaned.any isUpperAlnum then none
  else if tcExcluded cleaned then none
  else some cleaned

/-- capitalizeFirst of the services: uppercase the head, lowercase the rest. -/
def capitalizeFirst : List Char → List Char
  | [] => []
  | c :: rest => jsToUpper c :: rest.map jsToLower

/-- An option-valued string field is JS-falsy when absent or empty. -/
def falsyStr (o : Option (List Char)) : Bool :=
  match o with
  | none => true
  | some s => s.isEmpty

/-- The color vocabulary shared by the Strict and TrafficCamera services. -/
def validColors : List (List Char) :=
  [("red").toList, ("blue").toList, ("green").toList, ("yellow").toList,
   ("black").toList, ("white").toList, ("gray").toList, ("silver").toList,
   ("brown").toList, ("orange").toList]

/-- The color synonym map shared by the Strict and TrafficCamera services. -/
def colorMap : List (List Char × List Char) :=
  [(("grey").toList, ("Gray").toList), (("dark blue").toList, ("Blue").toList),
   (("light blue").toList, ("Blue").toList), (("navy").toList, ("Blue").toList),
   (("maroon").toList, ("Red").toList), (("burgundy").toList, ("Red").toList),
   (("crimson").toList, ("Red").toList), (("lime").toList, ("Green").toList),
   (("forest green").toList, ("Green").toList), (("beige").toList, ("Brown").toList),
   (("tan").toList, ("Brown").toList), (("cream").toList, ("White").toList),
   (("off-white").toList, ("White").toList), (("charcoal").toList, ("Black").toList),
   (("gold").toList, ("Yellow").toList)]

/-- validateColor of both strict services: lowercase and trim, direct match
against the vocabulary (then capitalized), else the synonym map, else none. -/
def validateColor (color : Option (List Char)) : Option (List Char) :=
  match color with
  | none => none
  | some s =>
    if s.isEmpty then none
    else
      let n := jsTrim (s.map jsToLower)
      if validColors.contains n then some (capitalizeFirst n)
      else (colorMap.lookup n)

/-- The vehicle-type vocabulary of strictVisionService.ts. -/
def strictValidTypes : List (List Char) :=
  [("sedan").toList, ("suv").toList, ("pickup").toList, ("truck").toList,
   ("bus").toList]

/-- The vehicle-type synonym map of strictVisionService.ts. -/
def strictTypeMap : List (List Char × List Char) :=
  [(("car").toList, ("Sedan").toList), (("automobile").toList, ("Sedan").toList),
   (("vehicle").toList, ("Sedan").toList), (("suv").toList, ("SUV").toList),
   (("sport utility vehicle").toList, ("SUV").toList),
   (("pickup truck").toList, ("Pickup").toList), (("pick-up").toList, ("Pickup").toList),
   (("lorry").toList, ("Truck").toList), (("semi").toList, ("Truck").toList),
   (("trailer").toList, ("Truck").toList), (("coach").toList, ("Bus").toList),
   (("minibus").toList, ("Bus").toList)]

/-- validateVehicleType of strictVisionService.ts. -/
def strictValidateVehicleType (t : Option (List Char)) : Option (List Char) :=
  match t with
  | none => none
  | some s =>
    if s.isEmpty then none
    else
      let n := jsTrim (s.map jsToLower)
      if strictValidTypes.contains n then some (capitalizeFirst n)
      else (strictTypeMap.lookup n)

/-- The vehicle-type vocabulary of trafficCameraVisionService.ts (adds
motorcycle). -/
def tcValidTypes : List (List Char) :=
  strictValidTypes ++ [("motorcycle").toList]

/-- The vehicle-type synonym map of trafficCameraVisionService.ts (adds bike
and motorbike). -/
def tcTypeMap : List (List Char × List Char) :=
  strictTypeMap ++ [(("bike").toList, ("Motorcycle").toList),
    (("motorbike").toList, ("Motorcycle").toList)]

/-- validateVehicleType of trafficCameraVisionService.ts. -/
def tcValidateVehicleType (t : Option (List Char)) : Option (List Char) :=
  match t with
  | none => none
  | some s =>
    if s.isEmpty then none
    else
      let n := jsTrim (s.map jsToLower)
      if tcValidTypes.contains n then some (capitalizeFirst n)
      else (tcTypeMap.lookup n)

/-- Case-insensitive anchored-at-start test via lowercasing. -/
def ciStartsWith (w l : List Char) : Bool :=
  (l.take w.length).map jsToLower = w

/-- Case-insensitive anchored-at-end test via lowercasing. -/
def ciEndsWith (w l : List Char) : Bool :=
  (l.reverse.take w.length).map jsToLower = w.reverse

/-- Drop trailing whitespace only. -/
def jsTrimEnd (l : List Char) : List Char :=
  (l.reverse.dropWhile isJsWs).reverse

/-- The label-removal step of cleanPlateNumber in enhancedVisionService.ts:
strip a leading case-insensitive label among license plate, plate number and
number, each followed by a colon and optional whitespace. -/
def stripPlateLabelLead (l : List Char) : List Char :=
  if ciStartsWith (("license plate:").toList) l then (l.drop 14).dropWhile isJsWs
  else if ciStartsWith (("plate number:").toList) l then (l.drop 13).dropWhile isJsWs
  else if ciStartsWith (("number:").toList) l then (l.drop 7).dropWhile isJsWs
  else l

/-- The label-removal step of cleanPlateNumber for trailing labels: strip a
trailing case-insensitive license plate or plate number preceded by optional
whitespace. -/
def stripPlateLabelTrail (l : List Char) : List Char :=
  if ciEndsWith (("license plate").toList) l then jsTrimEnd (l.take (l.length - 13))
  else if ciEndsWith (("plate number").toList) l then jsTrimEnd (l.take (l.length - 12))
  else l

/-- Drop one surrounding quote character on each side (the anchored quote
regex with the global flag). -/
def dropEdgeQuotes (l : List Char) : List Char :=
  let isQuote : Char → Bool := fun c => c.toNat = 34 || c.toNat = 39
  let l1 := match l with
    | [] => []
    | c :: rest => if isQuote c then rest else c :: rest
  (match l1.reverse with
    | [] => []
    | c :: rest => if isQuote c then rest.reverse else l1)

/-- The character replacements of cleanPlateNumber: en and em dashes become a
dash, the middle dot becomes a bullet (a bullet stays a bullet). -/
def lenientMapChar (c : Char) : Char :=
  if c.toNat = 0x2013 || c.toNat = 0x2014 then Char.ofNat 45
  else if c.toNat = 0xb7 then Char.ofNat 0x2022
  else c

/-- Replace each maximal whitespace run by a single space (the
whitespace-run regex of cleanPlateNumber). -/
def collapseWsRuns : List Char → List Char
  | [] => []
  | [c] => [if isJsWs c then ' ' else c]
  | a :: b :: rest =>
    if isJsWs a && isJsWs b then collapseWsRuns (b :: rest)
    else (if isJsWs a then ' ' else a) :: collapseWsRuns (b :: rest)

/-- Character class of the cleanPlateNumber validation regex: A-Z, 0-9,
whitespace, dash, bullet and full stop. -/
def isLenientPlateChar (c : Char) : Bool :=
  isUpperAlnum c || isJsWs c || c.toNat = 45 || c.toNat = 0x2022 || c.toNat = 46

/-- cleanPlateNumber of enhancedVisionService.ts: strip labels, trim, strip
quotes, normalize dashes and bullets, collapse whitespace runs, trim,
uppercase; then require the whole string to be 2 to 15 characters of the
lenient class with at least one alphanumeric, else return the empty string. -/
def cleanPlateNumber (l : List Char) : List Char :=
  let c1 := jsTrim (stripPlateLabelTrail (stripPlateLabelLead l))
  let c2 := dropEdgeQuotes c1
  let c3 := (jsTrim (collapseWsRuns (c2.map lenientMapChar))).map jsToUpper
  if !(decide (2 ≤ c3.length) && decide (c3.length ≤ 15) &&
       c3.all isLenientPlateChar) then []
  else if !c3.any isUpperAlnum then []
  else c3

/-- cleanField of enhancedVisionService.ts: on a present string, lowercase,
trim and keep only lowercase letters and digits; an absent field or an empty
cleaning result falls back to the default. -/
def cleanField (f : Option (List Char)) (dflt : List Char) : List Char :=
  match f with
  | none => dflt
  | some s =>
    if s.isEmpty then dflt
    else
      let c := (jsTrim (s.map jsToLower)).filter
        (fun c => (97 ≤ c.toNat && c.toNat ≤ 122) || (48 ≤ c.toNat && c.toNat ≤ 57))
      if c.isEmpty then dflt else c

/-- Pre-validation candidate of enhancedVisionService.ts (field names of the
source; the source field type is rendered vtype). -/
structure LenientCandidate where
  id : Option (List Char) := none
  plateNumber : Option (List Char) := none
  color : Option (List Char) := none
  vtype : Option (List Char) := none
  confidence : Option ℚ := none

/-- Validated record DetectedCar of enhancedVisionService.ts. -/
structure DetectedCar where
  id : List Char
  plateNumber : List Char
  color : List Char
  vtype : List Char
  confidence : ℚ
deriving DecidableEq

/-- One iteration of validateAndCleanCars in enhancedVisionService.ts: all
three of plateNumber, color and vtype must be non-falsy, the cleaned plate
must be nonempty and differ from the NOT_FOUND sentinel; color and vtype are
cleaned with the unknown default, the confidence defaults to 85, and a
missing id is replaced by a fresh one (uuidv4 of the source, modelled as the
parameter freshId). -/
def lenientValidateCar (freshId : List Char) (car : LenientCandidate) :
    Option DetectedCar :=
  if falsyStr car.plateNumber || falsyStr car.color || falsyStr car.vtype then none
  else
    let p := cleanPlateNumber (car.plateNumber.getD [])
    if p.isEmpty || p = ("NOT_FOUND").toList then none
    else some
      { id := match car.id with
          | none => freshId
          | some i => if i.isEmpty then freshId else i
        plateNumber := p
        color := cleanField car.color (("unknown").toList)
        vtype := cleanField car.vtype (("unknown").toList)
        confidence := match car.confidence with
          | none => 85
          | some q => if q = 0 then 85 else q }

/-- validateAndCleanCars of enhancedVisionService.ts. -/
def validateAndCleanCars (freshId : List Char) (cars : List LenientCandidate) :
    List DetectedCar :=
  cars.filterMap (lenientValidateCar freshId)

/-- Pre-validation candidate of strictVisionService.ts. -/
structure StrictCandidate where
  plate_number : Option (List Char) := none
  color : Option (List Char) := none
  vtype : Option (List Char) := none

/-- Validated record StrictDetectedCar of strictVisionService.ts. -/
structure StrictDetectedCar where
  plate_number : List Char
  color : List Char
  vtype : List Char
deriving DecidableEq

/-- One iteration of validateStrictCars in strictVisionService.ts: all three
fields non-falsy, the normalized plate nonempty and accepted by
isValidPlateFormat, the type and color canonical. -/
def strictValidateCar (car : StrictCandidate) : Option StrictDetectedCar :=
  if falsyStr car.plate_number || falsyStr car.color || falsyStr car.vtype then none
  else
    let np := normalizePlateList (car.plate_number.getD [])
    if np.isEmpty || !isValidPlateFormat np then none
    else
      match strictValidateVehicleType car.vtype with
      | none => none
      | some vt =>
        match validateColor car.color with
        | none => none
        | some vc => some { plate_number := np, color := vc, vtype := vt }

/-- validateStrictCars of strictVisionService.ts. -/
def validateStrictCars (cars : List StrictCandidate) : List StrictDetectedCar :=
  cars.filterMap strictValidateCar

/-- Pre-validation candidate of trafficCameraVisionService.ts. -/
structure TCCandidate where
  plate_number : Option (List Char) := none
  color : Option (List Char) := none
  vtype : Option (List Char) := none
  confidence_score : Option ℚ := none

/-- Validated record TrafficCameraDetectedCar of
trafficCameraVisionService.ts. -/
structure TCCar where
  plate_number : List Char := []
  color : List Char := []
  vtype : List Char := []
  timestamp : Option (List Char) := none
  camera_info : Option (List Char) := none
  confidence_score : Option ℚ := none
deriving DecidableEq

/-- validateTrafficCameraCar of trafficCameraVisionService.ts: all three
fields non-falsy, the plate accepted by validateTrafficCameraPlate, the type
and color canonical; a present confidence is clamped to the 0..100 range. -/
def tcValidateCar (v : TCCandidate) : Option TCCar :=
  if falsyStr v.plate_number || falsyStr v.color || falsyStr v.vtype then none
  else
    match validateTrafficCameraPlate (v.plate_number.getD []) with
    | none => none
    | some pn =>
      match tcValidateVehicleType v.vtype with
      | none => none
      | some vt =>
        match validateColor v.color with
        | none => none
        | some vc => some
          { plate_number := pn, color := vc, vtype := vt,
            confidence_score := v.confidence_score.map (fun q => max 0 (min 100 q)) }

/-- Numeric value of a decimal digit character. -/
def digitVal (c : Char) : Int :=
  (c.toNat : Int) - 48

/-- Year, zero-based month index, day and time of day as passed to the Date
constructor by extractTimestamp (no calendar rollover is applied, matching
the in-range arguments the claims are about). -/
structure DateParts where
  year : Int
  monthIndex : Int
  day : Int
  hour : Int
  minute : Int
  second : Int
deriving DecidableEq

/-- Anchored match of the extractTimestamp pattern: two digits, slash, two
digits, slash, four digits, at least one whitespace, then two digits, colon,
two digits, colon, two digits.  The greedy whitespace run never needs
backtracking because digits are not whitespace. -/
def matchTsHere (l : List Char) : Option DateParts :=
  match l with
  | d1 :: d2 :: s1 :: m1 :: m2 :: s2 :: y1 :: y2 :: y3 :: y4 :: rest =>
    if d1.isDigit && d2.isDigit && s1 = '/' && m1.isDigit && m2.isDigit &&
       s2 = '/' && y1.isDigit && y2.isDigit && y3.isDigit && y4.isDigit then
      match rest with
      | [] => none
      | w :: _ =>
        if isJsWs w then
          match rest.dropWhile isJsWs with
          | h1 :: h2 :: c1 :: n1 :: n2 :: c2 :: e1 :: e2 :: _ =>
            if h1.isDigit && h2.isDigit && c1 = ':' && n1.isDigit && n2.isDigit &&
               c2 = ':' && e1.isDigit && e2.isDigit then
              some
                { year := ((digitVal y1 * 10 + digitVal y2) * 10 + digitVal y3) * 10 +
                    digitVal y4
                  monthIndex := digitVal m1 * 10 + digitVal m2 - 1
                  day := digitVal d1 * 10 + digitVal d2
                  hour := digitVal h1 * 10 + digitVal h2
                  minute := digitVal n1 * 10 + digitVal n2
                  second := digitVal e1 * 10 + digitVal e2 }
            else none
          | _ => none
        else none
    else none
  | _ => none

/-- Leftmost unanchored search for the extractTimestamp pattern. -/
def findTs : List Char → Option DateParts
  | [] => none
  | c :: rest =>
    match matchTsHere (c :: rest) with
    | some d => some d
    | none => findTs rest

/-- Whether some position of the text matches the timestamp shape. -/
def hasTsShape (l : List Char) : Bool :=
  l.tails.any (fun t => (matchTsHere t).isSome)

/-- extractTimestamp of trafficCameraVisionService.ts: a falsy (absent or
empty) metadata text gives none, otherwise the leftmost match of the
timestamp pattern is turned into date parts with the month made zero-based. -/
def extractTimestamp (cameraMetadata : Option (List Char)) : Option DateParts :=
  match cameraMetadata with
  | none => none
  | some l => if l.isEmpty then none else findTs l

/-- Per-item result TrafficCameraRecognitionResult of
trafficCameraVisionService.ts. -/
structure TCResult where
  success : Bool := false
  cars : List TCCar := []
  totalDetected : Nat := 0
  timestamp : Option (List Char) := none
  camera_metadata : Option (List Char) := none
  error : Option (List Char) := none
deriving DecidableEq

/-- The failed-item result built in the catch branch of
processMultipleTrafficCameraImages. -/
def tcFailedResult (msg : List Char) : TCResult :=
  { success := false, cars := [], totalDetected := 0, error := some msg }

/-- processMultipleTrafficCameraImages of trafficCameraVisionService.ts.
The per-image network call is the parameter detect, returning either a
result or a thrown error message; the loop pushes one result per input and
converts a thrown error into the failed-item result.  The pacing delay has
no observable effect on the returned list. -/
def processMultipleTrafficCameraImages {α : Type} (detect : α → Except (List Char) TCResult)
    (imagePaths : List α) : List TCResult :=
  imagePaths.foldl
    (fun results p =>
      results ++ [match detect p with
        | Except.ok r => r
        | Except.error e => tcFailedResult e]) []

/-- Per-item result StrictCarRecognitionResult of strictVisionService.ts. -/
structure StrictResult where
  success : Bool := false
  cars : List StrictDetectedCar := []
  totalDetected : Nat := 0
  error : Option (List Char) := none
deriving DecidableEq

/-- The failed-item result built in the catch branch of
detectCarsFromMultipleImagesStrict. -/
def strictFailedResult (msg : List Char) : StrictResult :=
  { success := false, cars := [], totalDetected := 0, error := some msg }

/-- detectCarsFromMultipleImagesStrict of strictVisionService.ts, with the
per-image call as the parameter detect. -/
def detectCarsFromMultipleImagesStrict {α : Type}
    (detect : α → Except (List Char) StrictResult) (imagePaths : List α) :
    List StrictResult :=
  imagePaths.foldl
    (fun results p =>
      results ++ [match detect p with
        | Except.ok r => r
        | Except.error e => strictFailedResult e]) []

/-- The value an item contributes to the batch list: the detection result,
or the failed-item result when the call threw. -/
def tcRunItem {α : Type} (detect : α → Except (List Char) TCResult) (p : α) : TCResult :=
  match detect p with
  | Except.ok r => r
  | Except.error e => tcFailedResult e

/-- The value an item contributes to the strict batch list. -/
def strictRunItem {α : Type} (detect : α → Except (List Char) StrictResult) (p : α) :
    StrictResult :=
  match detect p with
  | Except.ok r => r
  | Except.error e => strictFailedResult e

/-- Aggregate statistics record of getTrafficCameraStats. -/
structure TCStats where
  totalImages : Nat
  successfulDetections : Nat
  totalVehiclesDetected : Nat
  averageConfidenceScore : ℚ
  timestampsExtracted : Nat
deriving DecidableEq

/-- JS Math.round: round half toward positive infinity. -/
def jsRound (q : ℚ) : Int :=
  ⌊q + 1 / 2⌋

/-- Rounding to two decimals as the statistics functions do. -/
def round2 (q : ℚ) : ℚ :=
  (jsRound (q * 100) : ℚ) / 100

/-- Sum of the confidence scores that are present, over all cars of all
results (the forEach accumulation of getTrafficCameraStats). -/
def confTotal (results : List TCResult) : ℚ :=
  (results.map (fun r => ((r.cars.filterMap (fun c => c.confidence_score)).foldl
    (fun a b => a + b) 0))).foldl (fun a b => a + b) 0

/-- Count of the confidence scores that are present. -/
def confCount (results : List TCResult) : Nat :=
  (results.map (fun r => (r.cars.filterMap (fun c => c.confidence_score)).length)).foldl
    (fun a b => a + b) 0

/-- JS truthiness of an optional string field. -/
def truthyStr (o : Option (List Char)) : Bool :=
  !falsyStr o

/-- getTrafficCameraStats of trafficCameraVisionService.ts: counts, sums of
totalDetected, the average of only the present confidence scores (0 when
none are present) rounded to two decimals, and the count of truthy
timestamps. -/
def getTrafficCameraStats (results : List TCResult) : TCStats :=
  { totalImages := results.length
    successfulDetections := (results.filter (fun r => r.success)).length
    totalVehiclesDetected := (results.map (fun r => r.totalDetected)).foldl
      (fun a b => a + b) 0
    averageConfidenceScore :=
      round2 (if 0 < confCount results then confTotal results / (confCount results : ℚ)
              else 0)
    timestampsExtracted := (results.filter (fun r => truthyStr r.timestamp)).length }

/-! Shape predicates and lemmas about the Strict normalizer. -/

/-- No two consecutive dashes. -/
def noDoubleDash : List Char → Bool
  | [] => true
  | [_] => true
  | a :: b :: rest => if a = '-' ∧ b = '-' then false else noDoubleDash (b :: rest)

/-- The head, if any, is not a dash. -/
def headNotDash : List Char → Bool
  | [] => true
  | c :: _ => decide (c ≠ '-')

/-- The last character, if any, is not a dash. -/
def lastNotDash : List Char → Bool
  | [] => true
  | [c] => decide (c ≠ '-')
  | _ :: b :: rest => lastNotDash (b :: rest)

/-- A character the normalizer never deletes: after uppercasing and
separator mapping it lies in the plate class. -/
def handledChar (c : Char) : Bool :=
  isPlateChar (sepToDash (jsToUpper c))

theorem collapseDashes_cons_ne {b : Char} (hb : ¬b = '-') (rest : List Char) :
    collapseDashes (b :: rest) = b :: collapseDashes rest := by
  cases rest with
  | nil => rfl
  | cons c rest' =>
    rw [collapseDashes, if_neg]
    intro h
    exact hb h.1

theorem head?_collapseDashes : ∀ l : List Char, (collapseDashes l).head? = l.head?
  | [] => rfl
  | [a] => rfl
  | a :: b :: rest => by
    by_cases h : a = '-' ∧ b = '-'
    · rw [collapseDashes, if_pos h, head?_collapseDashes (b :: rest)]
      simp [h.1, h.2]
    · rw [collapseDashes, if_neg h]
      rfl

theorem noDoubleDash_tail {a : Char} {l : List Char}
    (h : noDoubleDash (a :: l) = true) : noDoubleDash l = true := by
  cases l with
  | nil => rfl
  | cons b rest =>
    rw [noDoubleDash] at h
    by_cases hab : a = '-' ∧ b = '-'
    · rw [if_pos hab] at h
      exact absurd h (by simp)
    · rwa [if_neg hab] at h

theorem noDoubleDash_cons {a : Char} {l : List Char} (h : noDoubleDash l = true)
    (hh : ∀ c, l.head? = some c → ¬(a = '-' ∧ c = '-')) :
    noDoubleDash (a :: l) = true := by
  cases l with
  | nil => rfl
  | cons b rest =>
    rw [noDoubleDash, if_neg (hh b rfl)]
    exact h

theorem noDoubleDash_collapseDashes : ∀ l : List Char,
    noDoubleDash (collapseDashes l) = true
  | [] => rfl
  | [a] => rfl
  | a :: b :: rest => by
    by_cases h : a = '-' ∧ b = '-'
    · rw [collapseDashes, if_pos h]
      exact noDoubleDash_collapseDashes (b :: rest)
    · rw [collapseDashes, if_neg h]
      refine noDoubleDash_cons (noDoubleDash_collapseDashes (b :: rest)) ?_
      intro c hc hac
      rw [head?_collapseDashes (b :: rest)] at hc
      cases hc
      exact h ⟨hac.1, hac.2⟩

theorem collapseDashes_of_noDoubleDash : ∀ {l : List Char},
    noDoubleDash l = true → collapseDashes l = l
  | [], _ => rfl
  | [a], _ => rfl
  | a :: b :: rest, h => by
    rw [noDoubleDash] at h
    by_cases hab : a = '-' ∧ b = '-'
    · rw [if_pos hab] at h
      exact absurd h (by simp)
    · rw [collapseDashes, if_neg hab,
        collapseDashes_of_noDoubleDash (by rwa [if_neg hab] at h)]

theorem mem_collapseDashes : ∀ {l : List Char} {c : Char},
    c ∈ collapseDashes l → c ∈ l
  | [], _, h => h
  | [a], _, h => h
  | a :: b :: rest, c, h => by
    by_cases hab : a = '-' ∧ b = '-'
    · rw [collapseDashes, if_pos hab] at h
      exact List.mem_cons_of_mem a (mem_collapseDashes h)
    · rw [collapseDashes, if_neg hab] at h
      rcases List.mem_cons.mp h with h1 | h2
      · exact h1 ▸ List.mem_cons_self a _
      · exact List.mem_cons_of_mem a (mem_collapseDashes h2)

theorem noDoubleDash_dropLeadDash {l : List Char} (h : noDoubleDash l = true) :
    noDoubleDash (dropLeadDash l) = true := by
  cases l with
  | nil => rfl
  | cons c rest =>
    rw [dropLeadDash]
    by_cases hc : c = '-'
    · rw [if_pos hc]
      exact noDoubleDash_tail h
    · rwa [if_neg hc]

theorem headNotDash_dropLeadDash {l : List Char} (h : noDoubleDash l = true) :
    headNotDash (dropLeadDash l) = true := by
  cases l with
  | nil => rfl
  | cons c rest =>
    rw [dropLeadDash]
    by_cases hc : c = '-'
    · rw [if_pos hc]
      cases rest with
      | nil => rfl
      | cons b rest' =>
        rw [noDoubleDash] at h
        by_cases hb : b = '-'
        · rw [if_pos ⟨hc, hb⟩] at h
          exact absurd h (by simp)
        · simp [headNotDash, hb]
    · rw [if_neg hc]
      simp [headNotDash, hc]

theorem lastNotDash_dropLeadDash {l : List Char} (h : lastNotDash l = true) :
    lastNotDash (dropLeadDash l) = true := by
  cases l with
  | nil => rfl
  | cons c rest =>
    rw [dropLeadDash]
    by_cases hc : c = '-'
    · rw [if_pos hc]
      cases rest with
      | nil => rfl
      | cons b rest' => exact h
    · rwa [if_neg hc]

theorem dropLeadDash_of_headNotDash {l : List Char} (h : headNotDash l = true) :
    dropLeadDash l = l := by
  cases l with
  | nil => rfl
  | cons c rest =>
    rw [dropLeadDash, if_neg]
    simp only [headNotDash, decide_eq_true_eq] at h
    exact h

theorem mem_dropLeadDash {l : List Char} {c : Char} (h : c ∈ dropLeadDash l) :
    c ∈ l := by
  cases l with
  | nil => exact h
  | cons a rest =>
    rw [dropLeadDash] at h
    by_cases ha : a = '-'
    · rw [if_pos ha] at h
      exact List.mem_cons_of_mem a h
    · rwa [if_neg ha] at h

theorem dropTrailDash_eq_nil : ∀ {l : List Char},
    dropTrailDash l = [] → l = [] ∨ l = ['-']
  | [], _ => Or.inl rfl
  | [c], h => by
    rw [dropTrailDash] at h
    by_cases hc : c = '-'
    · exact Or.inr (by rw [hc])
    · rw [if_neg hc] at h
      exact absurd h (by simp)
  | a :: b :: rest, h => by
    rw [dropTrailDash] at h
    exact absurd h (by simp)

theorem head?_dropTrailDash : ∀ {l : List Char},
    dropTrailDash l = [] ∨ (dropTrailDash l).head? = l.head?
  | [] => Or.inl rfl
  | [c] => by
    rw [dropTrailDash]
    by_cases hc : c = '-'
    · exact Or.inl (by rw [if_pos hc])
    · rw [if_neg hc]
      exact Or.inr rfl
  | a :: b :: rest => by
    rw [dropTrailDash]
    exact Or.inr rfl

theorem noDoubleDash_dropTrailDash : ∀ {l : List Char},
    noDoubleDash l = true → noDoubleDash (dropTrailDash l) = true
  | [], _ => rfl
  | [c], _ => by
    rw [dropTrailDash]
    by_cases hc : c = '-'
    · rw [if_pos hc]; rfl
    · rw [if_neg hc]; rfl
  | a :: b :: rest, h => by
    rw [dropTrailDash]
    refine noDoubleDash_cons (noDoubleDash_dropTrailDash (noDoubleDash_tail h)) ?_
    intro c hc hac
    rcases @head?_dropTrailDash (b :: rest) with hnil | hhead
    · rw [hnil] at hc
      exact absurd hc (by simp)
    · rw [hhead] at hc
      cases hc
      rw [noDoubleDash, if_pos ⟨hac.1, hac.2⟩] at h
      exact absurd h (by simp)

theorem lastNotDash_dropTrailDash : ∀ {l : List Char},
    noDoubleDash l = true → lastNotDash (dropTrailDash l) = true
  | [], _ => rfl
  | [c], _ => by
    rw [dropTrailDash]
    by_cases hc : c = '-'
    · rw [if_pos hc]; rfl
    · rw [if_neg hc]
      simp [lastNotDash, hc]
  | a :: b :: rest, h => by
    rw [dropTrailDash]
    have ih := lastNotDash_dropTrailDash (noDoubleDash_tail h)
    cases hz : dropTrailDash (b :: rest) with
    | nil =>
      rcases dropTrailDash_eq_nil hz with h1 | h1
      · exact absurd h1 (by simp)
      · have hb : b = '-' := by
          have := congrArg List.head? h1
          simpa using this
        have hrest : rest = [] := by
          have := congrArg List.length h1
          simpa using this
        subst hrest
        rw [noDoubleDash] at h
        by_cases ha : a = '-'
        · rw [if_pos ⟨ha, hb⟩] at h
          exact absurd h (by simp)
        · simp [lastNotDash, ha]
    | cons z zs =>
      rw [hz] at ih
      exact ih

theorem headNotDash_dropTrailDash {l : List Char} (h : headNotDash l = true) :
    headNotDash (dropTrailDash l) = true := by
  cases l with
  | nil => rfl
  | cons c rest =>
    cases rest with
    | nil =>
      rw [dropTrailDash]
      by_cases hc : c = '-'
      · rw [if_pos hc]; rfl
      · rwa [if_neg hc]
    | cons b rest' =>
      rw [dropTrailDash]
      exact h

theorem dropTrailDash_of_lastNotDash : ∀ {l : List Char},
    lastNotDash l = true → dropTrailDash l = l
  | [], _ => rfl
  | [c], h => by
    rw [dropTrailDash, if_neg]
    simp only [lastNotDash, decide_eq_true_eq] at h
    exact h
  | a :: b :: rest, h => by
    rw [dropTrailDash, dropTrailDash_of_lastNotDash (l := b :: rest) h]

theorem mem_dropTrailDash : ∀ {l : List Char} {c : Char}, c ∈ dropTrailDash l → c ∈ l
  | [], _, h => h
  | [a], c, h => by
    rw [dropTrailDash] at h
    by_cases ha : a = '-'
    · rw [if_pos ha] at h
      exact absurd h (by simp)
    · rwa [if_neg ha] at h
  | a :: b :: rest, c, h => by
    rw [dropTrailDash] at h
    rcases List.mem_cons.mp h with h1 | h2
    · exact h1 ▸ List.mem_cons_self a _
    · exact List.mem_cons_of_mem a (mem_dropTrailDash h2)

theorem stripEdgeDashes_shape {l : List Char} (h : noDoubleDash l = true) :
    noDoubleDash (stripEdgeDashes l) = true ∧ headNotDash (stripEdgeDashes l) = true ∧
    lastNotDash (stripEdgeDashes l) = true := by
  refine ⟨noDoubleDash_dropTrailDash (noDoubleDash_dropLeadDash h),
    headNotDash_dropTrailDash (headNotDash_dropLeadDash h),
    lastNotDash_dropTrailDash (noDoubleDash_dropLeadDash h)⟩

theorem stripEdgeDashes_of_shape {l : List Char} (h1 : headNotDash l = true)
    (h2 : lastNotDash l = true) : stripEdgeDashes l = l := by
  rw [stripEdgeDashes, dropLeadDash_of_headNotDash h1, dropTrailDash_of_lastNotDash h2]

theorem mem_stripEdgeDashes {l : List Char} {c : Char} (h : c ∈ stripEdgeDashes l) :
    c ∈ l :=
  mem_dropLeadDash (mem_dropTrailDash h)

theorem isPlateChar_not_ws {c : Char} (h : isPlateChar c = true) : isJsWs c = false := by
  simp only [isPlateChar, Bool.or_eq_true, Bool.and_eq_true, decide_eq_true_eq] at h
  simp only [isJsWs, Bool.or_eq_true, Bool.and_eq_true, decide_eq_true_eq,
    Bool.eq_false_iff, ne_eq, not_or, not_and]
  omega

theorem jsToUpper_fix {c : Char} (h : isPlateChar c = true) : jsToUpper c = c := by
  simp only [isPlateChar, Bool.or_eq_true, Bool.and_eq_true, decide_eq_true_eq] at h
  rw [jsToUpper, if_neg]
  omega

theorem sepToDash_fix {c : Char} (h : isPlateChar c = true) : sepToDash c = c := by
  simp only [isPlateChar, Bool.or_eq_true, Bool.and_eq_true, decide_eq_true_eq] at h
  rw [sepToDash]
  split
  · next hcond =>
    exfalso
    simp only [isJsWs, Bool.or_eq_true, Bool.and_eq_true, decide_eq_true_eq] at hcond
    omega
  · rfl

theorem map_fix {f : Char → Char} : ∀ {l : List Char},
    (∀ c ∈ l, f c = c) → l.map f = l
  | [], _ => rfl
  | c :: rest, h => by
    rw [List.map_cons, h c (List.mem_cons_self c rest),
      map_fix (fun d hd => h d (List.mem_cons_of_mem c hd))]

theorem filter_fix {p : Char → Bool} : ∀ {l : List Char},
    (∀ c ∈ l, p c = true) → l.filter p = l
  | [], _ => rfl
  | c :: rest, h => by
    rw [List.filter_cons, if_pos (h c (List.mem_cons_self c rest)),
      filter_fix (fun d hd => h d (List.mem_cons_of_mem c hd))]

theorem mem_dropWhileChar {p : Char → Bool} : ∀ {l : List Char} {c : Char},
    c ∈ l.dropWhile p → c ∈ l
  | [], _, h => h
  | a :: rest, c, h => by
    cases ha : p a with
    | true =>
      simp only [List.dropWhile, ha] at h
      exact List.mem_cons_of_mem a (mem_dropWhileChar h)
    | false =>
      simp only [List.dropWhile, ha] at h
      exact h

theorem dropWhile_fix {p : Char → Bool} : ∀ {l : List Char},
    (∀ c ∈ l, p c = false) → l.dropWhile p = l
  | [], _ => rfl
  | c :: rest, h => by
    simp only [List.dropWhile, h c (List.mem_cons_self c rest)]

theorem jsTrim_fix {l : List Char} (h : ∀ c ∈ l, isJsWs c = false) : jsTrim l = l := by
  rw [jsTrim, dropWhile_fix h,
    dropWhile_fix (fun c hc => h c (List.mem_reverse.mp hc)), List.reverse_reverse]

theorem mem_jsTrim {l : List Char} {c : Char} (h : c ∈ jsTrim l) : c ∈ l := by
  rw [jsTrim, List.mem_reverse] at h
  replace h := mem_dropWhileChar h
  rw [List.mem_reverse] at h
  exact mem_dropWhileChar h

theorem normalizePlateList_all_plateChar (l : List Char) :
    ∀ c ∈ normalizePlateList l, isPlateChar c = true :=
  fun _ hc => (List.mem_filter.mp hc).2

/-- On a string that is already made of plate characters, the normalizer is
only the dash-run collapse followed by the edge-dash strip. -/
theorem normalize_of_plateChars {l : List Char} (h : ∀ c ∈ l, isPlateChar c = true) :
    normalizePlateList l = stripEdgeDashes (collapseDashes l) := by
  rw [normalizePlateList, jsTrim_fix (fun c hc => isPlateChar_not_ws (h c hc)),
    map_fix (fun c hc => jsToUpper_fix (h c hc)),
    map_fix (fun c hc => sepToDash_fix (h c hc))]
  exact filter_fix (fun c hc => h c (mem_collapseDashes (mem_stripEdgeDashes hc)))

/-- A doubly normalized plate is a fixed point of the normalizer. -/
theorem normalizePlateList_fix_twice (l : List Char) :
    normalizePlateList (normalizePlateList (normalizePlateList l)) =
    normalizePlateList (normalizePlateList l) := by
  have h1 := normalize_of_plateChars (normalizePlateList_all_plateChar l)
  have h2 := normalize_of_plateChars (normalizePlateList_all_plateChar
    (normalizePlateList l))
  rw [h2, h1]
  obtain ⟨nd, hh, hl⟩ := stripEdgeDashes_shape
    (noDoubleDash_collapseDashes (normalizePlateList l))
  rw [collapseDashes_of_noDoubleDash nd, stripEdgeDashes_of_shape hh hl]

/-- On inputs none of whose characters are deleted by the Strict filter, the
normalizer output has no double dash and no edge dash. -/
theorem normalizePlateList_shape {l : List Char} (h : ∀ c ∈ l, handledChar c = true) :
    noDoubleDash (normalizePlateList l) = true ∧
    headNotDash (normalizePlateList l) = true ∧
    lastNotDash (normalizePlateList l) = true := by
  have hx : ∀ c ∈ ((jsTrim l).map jsToUpper).map sepToDash, isPlateChar c = true := by
    intro c hc
    rcases List.mem_map.mp hc with ⟨d, hd, rfl⟩
    rcases List.mem_map.mp hd with ⟨e, he, rfl⟩
    exact h e (mem_jsTrim he)
  rw [normalizePlateList,
    filter_fix (fun c hc => hx c (mem_collapseDashes (mem_stripEdgeDashes hc)))]
  exact stripEdgeDashes_shape (noDoubleDash_collapseDashes _)

theorem toList_mk (l : List Char) : (String.mk l).toList = l := rfl

/-! Support lemmas for the validator claims. -/

theorem strict_rejects_digitDash {s : List Char}
    (h : ∀ c ∈ s, (c.isDigit || c = '-') = true) : isValidPlateFormat s = false := by
  cases s with
  | nil => rfl
  | cons a rest =>
    have hdd : digitsDashesOnly (a :: rest) = true := by
      simp only [digitsDashesOnly, List.isEmpty_cons, Bool.not_false, Bool.true_and,
        List.all_eq_true]
      exact h
    simp [isValidPlateFormat, strictExcluded, hdd]

theorem strict_rejects_len {s : List Char} (h : s.length = 1 ∨ s.length = 18) :
    isValidPlateFormat s = false := by
  rcases h with h | h <;> simp [isValidPlateFormat, h]

theorem strict_accepts_goodLen {s : List Char} (hlen : s.length = 2 ∨ s.length = 15)
    (halnum : ∀ c ∈ s, isUpperAlnum c = true) (hex : strictExcluded s = false) :
    isValidPlateFormat s = true := by
  cases s with
  | nil => rcases hlen with h | h <;> simp at h
  | cons a rest =>
    have h1 : (a :: rest).any isUpperAlnum = true :=
      List.any_eq_true.mpr ⟨a, List.mem_cons_self a rest, halnum a (List.mem_cons_self a rest)⟩
    rcases hlen with h | h <;> simp [isValidPlateFormat, h1, hex, h]

/-- Characters that the TrafficCamera cleaning step leaves unchanged:
uppercase letters, digits, dash and underscore. -/
def isTcFixedChar (c : Char) : Bool :=
  isPlateChar c || c.toNat = 95

theorem tcFixed_not_ws {c : Char} (h : isTcFixedChar c = true) : isJsWs c = false := by
  simp only [isTcFixedChar, isPlateChar, Bool.or_eq_true, Bool.and_eq_true,
    decide_eq_true_eq] at h
  simp only [isJsWs, Bool.or_eq_true, Bool.and_eq_true, decide_eq_true_eq,
    Bool.eq_false_iff, ne_eq, not_or, not_and]
  omega

theorem tcFixed_upper_fix {c : Char} (h : isTcFixedChar c = true) : jsToUpper c = c := by
  simp only [isTcFixedChar, isPlateChar, Bool.or_eq_true, Bool.and_eq_true,
    decide_eq_true_eq] at h
  rw [jsToUpper, if_neg]
  omega

theorem tcFixed_kept {c : Char} (h : isTcFixedChar c = true) :
    (isWordChar c || c = '-') = true := by
  by_cases h45 : c.toNat = 45
  · have h2 : Char.ofNat c.toNat = Char.ofNat 45 := congrArg Char.ofNat h45
    rw [Char.ofNat_toNat] at h2
    simp [h2]
  · simp only [isTcFixedChar, isPlateChar, Bool.or_eq_true, Bool.and_eq_true,
      decide_eq_true_eq] at h
    have hw : isWordChar c = true := by
      simp only [isWordChar, Bool.or_eq_true, Bool.and_eq_true, decide_eq_true_eq]
      omega
    simp [hw]

theorem upperAlnum_tcFixed {c : Char} (h : isUpperAlnum c = true) :
    isTcFixedChar c = true := by
  simp only [isUpperAlnum, Bool.or_eq_true, Bool.and_eq_true, decide_eq_true_eq] at h
  simp only [isTcFixedChar, isPlateChar, Bool.or_eq_true, Bool.and_eq_true,
    decide_eq_true_eq]
  omega

theorem tcCleanPlate_fix {s : List Char} (h : ∀ c ∈ s, isTcFixedChar c = true) :
    tcCleanPlate s = s := by
  rw [tcCleanPlate, jsTrim_fix (fun c hc => tcFixed_not_ws (h c hc)),
    map_fix (fun c hc => tcFixed_upper_fix (h c hc))]
  exact filter_fix (fun c hc => tcFixed_kept (h c hc))

theorem length_dropWhileChar_le (p : Char → Bool) : ∀ l : List Char,
    (l.dropWhile p).length ≤ l.length
  | [] => Nat.le_refl 0
  | a :: rest => by
    cases ha : p a with
    | true =>
      simp only [List.dropWhile, ha]
      exact Nat.le_succ_of_le (length_dropWhileChar_le p rest)
    | false =>
      simp only [List.dropWhile, ha]
      exact Nat.le_refl _

theorem jsTrim_length_le (s : List Char) : (jsTrim s).length ≤ s.length := by
  rw [jsTrim, List.length_reverse]
  calc ((s.dropWhile isJsWs).reverse.dropWhile isJsWs).length
      ≤ (s.dropWhile isJsWs).reverse.length := length_dropWhileChar_le _ _
    _ = (s.dropWhile isJsWs).length := List.length_reverse _
    _ ≤ s.length := length_dropWhileChar_le _ _

theorem tcCleanPlate_length_le (s : List Char) : (tcCleanPlate s).length ≤ s.length := by
  rw [tcCleanPlate]
  calc (((jsTrim s).map jsToUpper).filter (fun c => isWordChar c || c = '-')).length
      ≤ ((jsTrim s).map jsToUpper).length := List.length_filter_le _ _
    _ = (jsTrim s).length := List.length_map _ _
    _ ≤ s.length := jsTrim_length_le s

theorem tc_rejects_len1 {s : List Char} (h : s.length = 1) :
    validateTrafficCameraPlate s = none := by
  have h2 : (tcCleanPlate s).length < 2 :=
    Nat.lt_of_le_of_lt (tcCleanPlate_length_le s) (by omega)
  simp [validateTrafficCameraPlate, h2]

theorem tc_rejects_len18 {s : List Char} (hfix : ∀ c ∈ s, isTcFixedChar c = true)
    (h : s.length = 18) : validateTrafficCameraPlate s = none := by
  have hc := tcCleanPlate_fix hfix
  simp [validateTrafficCameraPlate, hc, h]

theorem tc_accepts_goodLen {s : List Char} (hlen : s.length = 2 ∨ s.length = 15)
    (halnum : ∀ c ∈ s, isUpperAlnum c = true) (hex : tcExcluded s = false) :
    validateTrafficCameraPlate s = some s := by
  have hc : tcCleanPlate s = s :=
    tcCleanPlate_fix (fun c hc => upperAlnum_tcFixed (halnum c hc))
  cases s with
  | nil => rcases hlen with h | h <;> simp at h
  | cons a rest =>
    have h1 : (a :: rest).any isUpperAlnum = true :=
      List.any_eq_true.mpr ⟨a, List.mem_cons_self a rest, halnum a (List.mem_cons_self a rest)⟩
    rcases hlen with h | h <;> simp [validateTrafficCameraPlate, hc, h1, hex, h]

/-! Support lemmas for the timestamp claim. -/

theorem findTs_eq_none : ∀ {l : List Char}, hasTsShape l = false → findTs l = none
  | [], _ => rfl
  | c :: rest, h => by
    rw [hasTsShape, List.tails_cons, List.any_cons, Bool.or_eq_false_iff] at h
    rcases h with ⟨h1, h2⟩
    rw [findTs]
    cases hm : matchTsHere (c :: rest) with
    | some d =>
      rw [hm] at h1
      simp at h1
    | none => exact findTs_eq_none (l := rest) h2

/-! Support lemmas for the batch claims. -/

theorem foldl_push_eq_map {α β : Type} (f : α → β) :
    ∀ (l : List α) (acc : List β),
      l.foldl (fun results p => results ++ [f p]) acc = acc ++ l.map f
  | [], acc => by simp
  | x :: rest, acc => by
    rw [List.foldl_cons, foldl_push_eq_map f rest (acc ++ [f x])]
    simp

theorem processMultipleTC_eq_map {α : Type} (detect : α → Except (List Char) TCResult)
    (paths : List α) :
    processMultipleTrafficCameraImages detect paths = paths.map (tcRunItem detect) :=
  foldl_push_eq_map (tcRunItem detect) paths []

theorem processMultipleStrict_eq_map {α : Type}
    (detect : α → Except (List Char) StrictResult) (paths : List α) :
    detectCarsFromMultipleImagesStrict detect paths = paths.map (strictRunItem detect) :=
  foldl_push_eq_map (strictRunItem detect) paths []

/-! Support lemmas for the statistics claim. -/

theorem confTotal_append_noconf (rs : List TCResult) (r : TCResult)
    (h : ∀ car ∈ r.cars, car.confidence_score = none) :
    confTotal (rs ++ [r]) = confTotal rs := by
  rw [confTotal, confTotal, List.map_append, List.foldl_append]
  simp [List.filterMap_eq_nil_iff.mpr h]

theorem confCount_append_noconf (rs : List TCResult) (r : TCResult)
    (h : ∀ car ∈ r.cars, car.confidence_score = none) :
    confCount (rs ++ [r]) = confCount rs := by
  rw [confCount, confCount, List.map_append, List.foldl_append]
  simp [List.filterMap_eq_nil_iff.mpr h]

/-! Claim theorems. -/

/-- C1, counterexample: the Strict plate normalizer is not idempotent as
claimed.  On an input where the final character filter deletes a character
next to an edge dash, the first pass leaves a leading dash that a second
pass then removes. -/
theorem c1_idempotence_counterexample :
    normalizePlateNumber (normalizePlateNumber ("!-A")) ≠
      normalizePlateNumber ("!-A") := by
  decide

/-- C1, amended: one further application of the normalizer reaches a fixed
point: for every plate text p, normalizing a twice-normalized plate gives
the twice-normalized plate.  Idempotence in one step fails only on inputs
where the Strict character filter deletes characters (see the
counterexample). -/
theorem c1_normalizer_eventually_idempotent (p : String) :
    normalizePlateNumber (normalizePlateNumber (normalizePlateNumber p)) =
      normalizePlateNumber (normalizePlateNumber p) := by
  simp only [normalizePlateNumber, toList_mk]
  rw [normalizePlateList_fix_twice]

/-- C2, counterexample: the exclusion rejections do not hold for every
policy.  The Strict validator accepts VEHICLE:1576 because its exclusion
list has no VEHICLE pattern, and the TrafficCamera validator accepts 12:34
because cleaning strips the colon before the time pattern is tested. -/
theorem c2_exclusion_counterexample :
    isValidPlateFormat (("VEHICLE:1576").toList) = true ∧
    validateTrafficCameraPlate (("12:34").toList) = some (("1234").toList) := by
  decide

/-- C2, amended: the Strict validator rejects 2023-12-25, 12:34, CAM001,
the three-dash string and every digits-and-dashes-only string; the
TrafficCamera validator rejects 2023-12-25, CAM001, VEHICLE:1576 and the
three-dash string; both reject the sentinel words.  But Strict accepts
VEHICLE:1576 and TrafficCamera accepts 12:34, so the listed rejections are
not shared by every policy. -/
theorem c2_exclusion_amended :
    (isValidPlateFormat (("2023-12-25").toList) = false ∧
     isValidPlateFormat (("12:34").toList) = false ∧
     isValidPlateFormat (("CAM001").toList) = false ∧
     isValidPlateFormat (("---").toList) = false) ∧
    (∀ s : List Char, (∀ c ∈ s, (c.isDigit || c = '-') = true) →
      isValidPlateFormat s = false) ∧
    (validateTrafficCameraPlate (("2023-12-25").toList) = none ∧
     validateTrafficCameraPlate (("CAM001").toList) = none ∧
     validateTrafficCameraPlate (("VEHICLE:1576").toList) = none ∧
     validateTrafficCameraPlate (("---").toList) = none) ∧
    (∀ w ∈ sentinelWords, isValidPlateFormat w = false ∧
      validateTrafficCameraPlate w = none) := by
  refine ⟨by decide, ?_, by decide, by decide⟩
  exact fun s h => strict_rejects_digitDash h

/-- C2, witness for the amended theorem at the digits-and-dashes string
123-45 and the sentinel word UNKNOWN. -/
theorem c2_exclusion_amended_witness :
    ((∀ c ∈ ("123-45").toList, (c.isDigit || c = '-') = true) ∧
      isValidPlateFormat (("123-45").toList) = false) ∧
    ((("UNKNOWN").toList ∈ sentinelWords) ∧
      isValidPlateFormat (("UNKNOWN").toList) = false ∧
      validateTrafficCameraPlate (("UNKNOWN").toList) = none) :=
  ⟨⟨by decide, c2_exclusion_amended.2.1 (("123-45").toList) (by decide)⟩,
   ⟨by decide, c2_exclusion_amended.2.2.2 (("UNKNOWN").toList) (by decide)⟩⟩

/-- C3, confirmed: the four documented normalizations hold: the bullet, the
dot and the space each become a dash, and a double dash collapses. -/
theorem c3_normalizer_examples :
    normalizePlateNumber ("22•24869") = ("22-24869" : String) ∧
    normalizePlateNumber ("AB.123") = ("AB-123" : String) ∧
    normalizePlateNumber ("AB 123") = ("AB-123" : String) ∧
    normalizePlateNumber ("XY--456") = ("XY-456" : String) := by
  decide

/-- C4, counterexample: an 18-character raw string is not always rejected.
The TrafficCamera validator cleans before measuring, so an 18-character
input whose punctuation is stripped down to 6 characters is accepted. -/
theorem c4_length_counterexample :
    (("AB-123!!!!!!!!!!!!").toList).length = 18 ∧
    validateTrafficCameraPlate (("AB-123!!!!!!!!!!!!").toList) =
      some (("AB-123").toList) := by
  decide

/-- C4, amended: the Strict validator rejects every 1-character and every
18-character string and accepts every 2- or 15-character uppercase
alphanumeric string matching no exclusion pattern.  The TrafficCamera
validator does the same on strings its cleaning step leaves unchanged
(uppercase letters, digits, dash, underscore); it rejects every 1-character
raw string, but an 18-character raw string can be accepted when cleaning
shortens it (see the counterexample). -/
theorem c4_length_bounds_amended :
    (∀ s : List Char, s.length = 1 ∨ s.length = 18 → isValidPlateFormat s = false) ∧
    (∀ s : List Char, (s.length = 2 ∨ s.length = 15) →
      (∀ c ∈ s, isUpperAlnum c = true) → strictExcluded s = false →
      isValidPlateFormat s = true) ∧
    (∀ s : List Char, s.length = 1 → validateTrafficCameraPlate s = none) ∧
    (∀ s : List Char, (∀ c ∈ s, isTcFixedChar c = true) → s.length = 18 →
      validateTrafficCameraPlate s = none) ∧
    (∀ s : List Char, (s.length = 2 ∨ s.length = 15) →
      (∀ c ∈ s, isUpperAlnum c = true) → tcExcluded s = false →
      validateTrafficCameraPlate s = some s) :=
  ⟨fun _ h => strict_rejects_len h,
   fun _ h1 h2 h3 => strict_accepts_goodLen h1 h2 h3,
   fun _ h => tc_rejects_len1 h,
   fun _ h1 h2 => tc_rejects_len18 h1 h2,
   fun _ h1 h2 h3 => tc_accepts_goodLen h1 h2 h3⟩

/-- C4, witness for the amended theorem at concrete strings of lengths 1,
18, 2 and 15. -/
theorem c4_length_bounds_amended_witness :
    ((("Q").toList.length = 1 ∨ ("Q").toList.length = 18) ∧
      isValidPlateFormat (("Q").toList) = false) ∧
    (((("AB").toList.length = 2 ∨ ("AB").toList.length = 15) ∧
      (∀ c ∈ ("AB").toList, isUpperAlnum c = true) ∧
      strictExcluded (("AB").toList) = false) ∧
      isValidPlateFormat (("AB").toList) = true) ∧
    ((("Q").toList.length = 1) ∧ validateTrafficCameraPlate (("Q").toList) = none) ∧
    (((∀ c ∈ ("ABCDEFGHIJKLMNOPQR").toList, isTcFixedChar c = true) ∧
      ("ABCDEFGHIJKLMNOPQR").toList.length = 18) ∧
      validateTrafficCameraPlate (("ABCDEFGHIJKLMNOPQR").toList) = none) ∧
    (((("AB1234567890123").toList.length = 2 ∨
        ("AB1234567890123").toList.length = 15) ∧
      (∀ c ∈ ("AB1234567890123").toList, isUpperAlnum c = true) ∧
      tcExcluded (("AB1234567890123").toList) = false) ∧
      validateTrafficCameraPlate (("AB1234567890123").toList) =
        some (("AB1234567890123").toList)) :=
  ⟨⟨by decide, c4_length_bounds_amended.1 (("Q").toList) (by decide)⟩,
   ⟨by decide, c4_length_bounds_amended.2.1 (("AB").toList) (by decide) (by decide)
      (by decide)⟩,
   ⟨by decide, c4_length_bounds_amended.2.2.1 (("Q").toList) (by decide)⟩,
   ⟨by decide, c4_length_bounds_amended.2.2.2.1 (("ABCDEFGHIJKLMNOPQR").toList)
      (by decide) (by decide)⟩,
   ⟨by decide, c4_length_bounds_amended.2.2.2.2 (("AB1234567890123").toList)
      (by decide) (by decide) (by decide)⟩⟩

/-- C5, counterexample: on a candidate whose color text turquoise has no
vocabulary match, the Lenient pipeline emits the cleaned raw color text, not
the sentinel unknown. -/
theorem c5_lenient_color_counterexample :
    (validateAndCleanCars (("fresh").toList)
      [{ id := some (("car_1").toList), plateNumber := some (("AB-123").toList),
         color := some (("turquoise").toList),
         vtype := some (("sedan").toList) }]).map (fun d => d.color) =
      [("turquoise").toList] ∧
    [("turquoise").toList] ≠ [("unknown").toList] := by
  decide

/-- C5, amended: Strict and TrafficCamera drop a candidate whose color has
no vocabulary or synonym match, as claimed; the Lenient pipeline keeps the
candidate but stores the cleaned raw color text, and its unknown sentinel
appears only when the color cleans to the empty string. -/
theorem c5_color_policy_amended :
    (validateAndCleanCars (("f2").toList)
      [{ id := some (("car_2").toList), plateNumber := some (("AB-123").toList),
         color := some (("turquoise").toList),
         vtype := some (("sedan").toList) }]).map (fun d => d.color) =
      [("turquoise").toList] ∧
    (validateAndCleanCars (("f2").toList)
      [{ id := some (("car_2").toList), plateNumber := some (("AB-123").toList),
         color := some (("???").toList),
         vtype := some (("sedan").toList) }]).map (fun d => d.color) =
      [("unknown").toList] ∧
    validateStrictCars
      [{ plate_number := some (("AB-123").toList),
         color := some (("turquoise").toList),
         vtype := some (("sedan").toList) }] = [] ∧
    tcValidateCar
      { plate_number := some (("AB-123").toList),
        color := some (("turquoise").toList),
        vtype := some (("sedan").toList) } = none := by
  decide

/-- C6, confirmed: the timestamp extractor reads the camera overlay
day-first, yielding year 2025, zero-based month 8, day 22 and time
15:55:54; it returns none on text without the shape and on absent input. -/
theorem c6_timestamp_extraction :
    extractTimestamp
      (some (("Vehicle:1576 NonVehicle:0 Person:0 22/09/2025 15:55:54").toList)) =
      some { year := 2025, monthIndex := 8, day := 22, hour := 15, minute := 55,
             second := 54 } ∧
    extractTimestamp (some (("no timestamp here").toList)) = none ∧
    extractTimestamp none = none ∧
    (∀ s : List Char, hasTsShape s = false → extractTimestamp (some s) = none) := by
  refine ⟨by decide, by decide, rfl, ?_⟩
  intro s h
  simp only [extractTimestamp]
  split
  · rfl
  · exact findTs_eq_none h

/-- C6, witness for the shape-free conjunct at the text abc. -/
theorem c6_timestamp_extraction_witness :
    hasTsShape (("abc").toList) = false ∧
    extractTimestamp (some (("abc").toList)) = none :=
  ⟨by decide, c6_timestamp_extraction.2.2.2 (("abc").toList) (by decide)⟩

/-- C7, counterexample: the Lenient pipeline also drops a candidate whose
color is absent even though its plate is present, contrary to the claim
that Lenient only requires plateText. -/
theorem c7_missing_fields_counterexample :
    validateAndCleanCars (("f3").toList)
      [{ id := some (("car_3").toList), plateNumber := some (("AB-123").toList),
         color := none, vtype := some (("sedan").toList) }] = [] := by
  decide

/-- C7, amended: all three policies reject a candidate as soon as any of
the plate, color or type field is absent or empty; the Lenient pipeline is
no exception. -/
theorem c7_missing_fields_amended :
    (∀ cand : StrictCandidate,
      (falsyStr cand.plate_number || falsyStr cand.color ||
        falsyStr cand.vtype) = true → strictValidateCar cand = none) ∧
    (∀ v : TCCandidate,
      (falsyStr v.plate_number || falsyStr v.color ||
        falsyStr v.vtype) = true → tcValidateCar v = none) ∧
    (∀ (fid : List Char) (car : LenientCandidate),
      (falsyStr car.plateNumber || falsyStr car.color ||
        falsyStr car.vtype) = true → lenientValidateCar fid car = none) := by
  refine ⟨?_, ?_, ?_⟩
  · intro cand h
    simp [strictValidateCar, h]
  · intro v h
    simp [tcValidateCar, h]
  · intro fid car h
    simp [lenientValidateCar, h]

/-- C7, witness at a candidate whose color is missing. -/
theorem c7_missing_fields_amended_witness :
    ((falsyStr (some (("AB-123").toList)) || falsyStr (none : Option (List Char)) ||
       falsyStr (some (("sedan").toList))) = true) ∧
    strictValidateCar
      { plate_number := some (("AB-123").toList), color := none,
        vtype := some (("sedan").toList) } = none ∧
    tcValidateCar
      { plate_number := some (("AB-123").toList), color := none,
        vtype := some (("sedan").toList) } = none ∧
    lenientValidateCar (("f4").toList)
      { id := some (("car_4").toList), plateNumber := some (("AB-123").toList),
        color := none, vtype := some (("sedan").toList) } = none :=
  ⟨by decide,
   c7_missing_fields_amended.1 _ (by decide),
   c7_missing_fields_amended.2.1 _ (by decide),
   c7_missing_fields_amended.2.2 (("f4").toList) _ (by decide)⟩

/-- C8, confirmed: the batch average confidence is the mean over only the
detections that carry a confidence value: on confidences 95 and 88 plus one
detection without a confidence it equals the two-element mean, and
appending a result whose detections all lack confidence never changes the
average (they are excluded from numerator and denominator, not counted as
zero). -/
theorem c8_average_confidence :
    (getTrafficCameraStats
      [{ success := true,
         cars := [{ confidence_score := some 95 }, { confidence_score := some 88 },
                  { confidence_score := none }],
         totalDetected := 3 }]).averageConfidenceScore = (95 + 88) / 2 ∧
    (∀ (rs : List TCResult) (r : TCResult),
      (∀ car ∈ r.cars, car.confidence_score = none) →
      (getTrafficCameraStats (rs ++ [r])).averageConfidenceScore =
        (getTrafficCameraStats rs).averageConfidenceScore) := by
  constructor
  · norm_num [getTrafficCameraStats, confTotal, confCount, round2, jsRound,
      List.filterMap, List.foldl]
  · intro rs r h
    simp only [getTrafficCameraStats, confTotal_append_noconf rs r h,
      confCount_append_noconf rs r h]

/-- C8, witness for the no-confidence invariance at a one-car result. -/
theorem c8_average_confidence_witness :
    (∀ car, car ∈ [({ confidence_score := none } : TCCar)] →
      car.confidence_score = none) ∧
    (getTrafficCameraStats
        ([] ++ [({ success := false,
                   cars := [({ confidence_score := none } : TCCar)],
                   totalDetected := 1 } : TCResult)])).averageConfidenceScore =
      (getTrafficCameraStats []).averageConfidenceScore :=
  ⟨by decide, c8_average_confidence.2 [] _ (by decide)⟩

/-- C9, confirmed: both batch orchestrators return exactly one result per
input in input order, each depending only on its own item, and an error
thrown while processing one item becomes that item's failed result with the
message captured, leaving every other position unaffected. -/
theorem c9_batch_isolation {α β : Type} (detect : α → Except (List Char) TCResult)
    (sdetect : β → Except (List Char) StrictResult) (paths : List α)
    (spaths : List β) :
    (processMultipleTrafficCameraImages detect paths).length = paths.length ∧
    (∀ i : Nat, (processMultipleTrafficCameraImages detect paths)[i]? =
      (paths[i]?).map (tcRunItem detect)) ∧
    (∀ (i : Nat) (x : α) (e : List Char), paths[i]? = some x →
      detect x = Except.error e →
      (processMultipleTrafficCameraImages detect paths)[i]? =
        some (tcFailedResult e)) ∧
    (detectCarsFromMultipleImagesStrict sdetect spaths).length = spaths.length ∧
    (∀ i : Nat, (detectCarsFromMultipleImagesStrict sdetect spaths)[i]? =
      (spaths[i]?).map (strictRunItem sdetect)) := by
  refine ⟨?_, ?_, ?_, ?_, ?_⟩
  · rw [processMultipleTC_eq_map, List.length_map]
  · intro i
    rw [processMultipleTC_eq_map, List.getElem?_map]
  · intro i x e hx he
    rw [processMultipleTC_eq_map, List.getElem?_map, hx]
    simp [tcRunItem, he]
  · rw [processMultipleStrict_eq_map, List.length_map]
  · intro i
    rw [processMultipleStrict_eq_map, List.getElem?_map]

/-- C9, witness: a three-item batch whose second item throws yields the
failed result at position one. -/
theorem c9_batch_isolation_witness :
    ([(1 : Nat), 2, 3][1]? = some 2 ∧
     (fun n : Nat => if n = 2 then Except.error (("boom").toList)
        else Except.ok ({ success := true } : TCResult)) 2 =
       Except.error (("boom").toList)) ∧
    (processMultipleTrafficCameraImages
        (fun n : Nat => if n = 2 then Except.error (("boom").toList)
          else Except.ok ({ success := true } : TCResult)) [1, 2, 3])[1]? =
      some (tcFailedResult (("boom").toList)) :=
  ⟨⟨rfl, rfl⟩,
   (c9_batch_isolation
      (fun n : Nat => if n = 2 then Except.error (("boom").toList)
        else Except.ok ({ success := true } : TCResult))
      (fun _ : Nat => Except.ok ({ } : StrictResult)) [1, 2, 3] []).2.2.1
     1 2 (("boom").toList) rfl rfl⟩

/-- C10, counterexample: the Strict normalizer output can contain two
consecutive dashes, because the character filter that deletes characters
runs after the dash-run collapse. -/
theorem c10_shape_counterexample :
    normalizePlateNumber ("A-!-B") = ("A--B" : String) ∧
    noDoubleDash ((normalizePlateNumber ("A-!-B")).toList) = false := by
  decide

/-- C10, amended: the Strict normalizer output always consists only of
characters in the A-Z 0-9 dash class; and on every input none of whose
characters are deleted by the Strict filter, the output additionally never
begins or ends with a dash and never contains two consecutive dashes. -/
theorem c10_shape_amended (p : String) :
    (∀ c ∈ (normalizePlateNumber p).toList, isPlateChar c = true) ∧
    ((∀ c ∈ p.toList, handledChar c = true) →
      noDoubleDash ((normalizePlateNumber p).toList) = true ∧
      headNotDash ((normalizePlateNumber p).toList) = true ∧
      lastNotDash ((normalizePlateNumber p).toList) = true) := by
  constructor
  · simp only [normalizePlateNumber, toList_mk]
    exact normalizePlateList_all_plateChar p.toList
  · intro h
    simp only [normalizePlateNumber, toList_mk]
    exact normalizePlateList_shape h

/-- C10, witness for the amended theorem at the input AB 123. -/
theorem c10_shape_amended_witness :
    (('A' ∈ (normalizePlateNumber ("AB 123")).toList) ∧ isPlateChar 'A' = true) ∧
    ((∀ c ∈ ("AB 123" : String).toList, handledChar c = true) ∧
      noDoubleDash ((normalizePlateNumber ("AB 123")).toList) = true ∧
      headNotDash ((normalizePlateNumber ("AB 123")).toList) = true ∧
      lastNotDash ((normalizePlateNumber ("AB 123")).toList) = true) :=
  ⟨⟨by decide, (c10_shape_amended ("AB 123")).1 'A' (by decide)⟩,
   ⟨by decide, (c10_shape_amended ("AB 123")).2 (by decide)⟩⟩

end PlateRec
